import Mathlib

/-!
Verification of the ribbon-engine layout and compositing core
(`src/shirtmaker.py`) against its specification.

The embedding models bitmaps as rectangular pixel buffers with a color
mode; pixel coordinates are integers (PIL paste boxes may be negative
and are clipped against the canvas, which the model reflects by only
ever interpreting in-bounds coordinates of the canvas). Machine
arithmetic in the source is Python arbitrary-precision integer
arithmetic, except one float product in the horizontal-centering
offset, which is exact (an integer divided by two is an exact dyadic
float) and truncated back to an integer; it is therefore modelled by
natural-number floor division.
-/

set_option linter.unusedVariables false

namespace Shirtmaker

/-- An RGBA pixel value: red, green, blue and alpha channels. -/
structure Pixel where
  r : Nat
  g : Nat
  b : Nat
  a : Nat
deriving DecidableEq

/-- A bitmap: a pixel buffer of a given width, height and color mode
(PIL `Image.Image`). The pixel function is total; only coordinates with
`0 ≤ x < width` and `0 ≤ y < height` are meaningful. -/
structure Bitmap where
  width : Nat
  height : Nat
  mode : String
  pix : Int → Int → Pixel

/-- Diagnostic warnings the source prints to the console, one tag per
`print` site. -/
inductive Warning where
  | nametapeMode
  | textOverflow
  | canvasMode
  | overlayMode
  | originOutOfBounds
deriving DecidableEq

/-- Membership of the point `(x, y)` in the half-open `w × h` rectangle
whose top-left corner is `(x0, y0)`. -/
def inRectB (x0 y0 : Int) (w h : Nat) (x y : Int) : Bool :=
  decide (x0 ≤ x ∧ x < x0 + w ∧ y0 ≤ y ∧ y < y0 + h)

/-- PIL `Image.new(mode, (w, h), fill)`: a constant bitmap. -/
def imageNew (mode : String) (w h : Nat) (fill : Pixel) : Bitmap :=
  ⟨w, h, mode, fun _ _ => fill⟩

/-- PIL `im.convert("RGBA")`. Converting an RGBA image is the identity
on pixel data; converting an alpha-less image (the only other case the
repository exercises) keeps the color channels and fills the alpha
channel fully opaque. -/
def convertRGBA (im : Bitmap) : Bitmap :=
  if im.mode = "RGBA" then im
  else ⟨im.width, im.height, "RGBA",
        fun x y => ⟨(im.pix x y).r, (im.pix x y).g, (im.pix x y).b, 255⟩⟩

/-- PIL `canvas.paste(overlay, (x0, y0, x0+ow, y0+oh))` with no mask:
inside the box the overlay's pixels, alpha channel included, replace
the canvas pixels; outside the box the canvas is untouched. The box is
clipped against the canvas, which the model reflects by leaving
out-of-canvas coordinates uninterpreted. -/
def paste (canvas overlay : Bitmap) (x0 y0 : Int) : Bitmap :=
  ⟨canvas.width, canvas.height, canvas.mode,
   fun x y =>
     if inRectB x0 y0 overlay.width overlay.height x y then
       overlay.pix (x - x0) (y - y0)
     else canvas.pix x y⟩

/-- Membership of `(x, y)` in the one-pixel outline of the rectangle
with corners `(x0, y0)` and `(x1, y1)`, both inclusive, as drawn by PIL
`ImageDraw.rectangle(..., outline=color)`. -/
def onOutline (x0 y0 x1 y1 x y : Int) : Bool :=
  decide ((x0 ≤ x ∧ x ≤ x1 ∧ y0 ≤ y ∧ y ≤ y1) ∧
          (x = x0 ∨ x = x1 ∨ y = y0 ∨ y = y1))

/-- PIL `ImageDraw.Draw(im); draw.rectangle([x0, y0, x1, y1], outline=color)`:
paints the rectangle's one-pixel outline in the given (opaque) color. -/
def drawRectOutline (im : Bitmap) (x0 y0 x1 y1 : Int) (color : Pixel) : Bitmap :=
  ⟨im.width, im.height, im.mode,
   fun x y => if onOutline x0 y0 x1 y1 x y then color else im.pix x y⟩

/-- A font resource: `textlength` is the measured pixel width of a
string (PIL `ImageDraw.textlength`, truncated to an integer by the
source), and `covers` is the glyph coverage mask of a rendered string
relative to its draw origin. -/
structure Font where
  textlength : String → Nat
  covers : String → Int → Int → Bool

/-- Source-over alpha compositing of one pixel onto another.
Modelled from the spec: the draw context composites text
"with alpha-aware blending"; the exact blend formula is immaterial to
the claims, only that covered pixels are repainted and others kept. -/
def blendOver (src dst : Pixel) : Pixel :=
  ⟨(src.r * src.a + dst.r * (255 - src.a)) / 255,
   (src.g * src.a + dst.g * (255 - src.a)) / 255,
   (src.b * src.a + dst.b * (255 - src.a)) / 255,
   src.a + dst.a * (255 - src.a) / 255⟩

/-- PIL `draw.text((ox, oy), text, color, font)` on an alpha-capable
draw context. Modelled from the spec: text is "composited with
alpha-aware blending (text drawn via alpha-capable draw context)";
pixels covered by the rendered glyphs are blended, all others kept. -/
def drawText (im : Bitmap) (ox oy : Int) (text : String) (color : Pixel)
    (font : Font) : Bitmap :=
  ⟨im.width, im.height, im.mode,
   fun x y =>
     if font.covers text (x - ox) (y - oy) then blendOver color (im.pix x y)
     else im.pix x y⟩

/-- One step of the row-partition loop of `arrangeRibbons` per unit of
fuel: while the list is non-empty, split off its first
`min (length, k)` elements as the next row. The fuel only runs out
when `k = 0`, in which case the Python `while` loop does not
terminate; every claim assumes `k ≥ 1`, where the fuel
`ribbons.length` always suffices. -/
def makeRowsGo {α : Type _} : Nat → List α → Nat → List (List α)
  | _, [], _ => []
  | 0, _ :: _, _ => []
  | fuel + 1, a :: l, k =>
      ((a :: l).take (min (a :: l).length k)) ::
        makeRowsGo fuel ((a :: l).drop (min (a :: l).length k)) k

/-- The row-partition loop of `arrangeRibbons` (`src/shirtmaker.py`
lines 40–43): consecutive groups of `ribbonsPerRow` tiles, the last
group possibly shorter. -/
def makeRows {α : Type _} (ribbons : List α) (ribbonsPerRow : Nat) : List (List α) :=
  makeRowsGo ribbons.length ribbons ribbonsPerRow

/-- Length of row `r` (0-based) of the partition, `0` past the end. -/
def rowLength (tiles : List Bitmap) (k r : Nat) : Nat :=
  ((makeRows tiles k).getD r []).length

/-- `ribbonOriginX` of `src/shirtmaker.py` line 50:
`int(((w+1)/2)*(k - rowLength) + (w+1)*ribbonIndex + 1)`. The Python
float product `((w+1)/2)*(k - rowLength)` is exact (an integer halved
is an exact dyadic float) and nonnegative, so the truncation `int(...)`
is the floor division modelled here. -/
def ribbonOriginX (w k rowLen ribbonIndex : Nat) : Nat :=
  ((w + 1) * (k - rowLen)) / 2 + (w + 1) * ribbonIndex + 1

/-- `ribbonOriginY` of `src/shirtmaker.py` line 51:
`int(rowAmount*(h+1) - (rowAmount-rowIndex)*(h+1) + 1)`, over the
integers as in Python. -/
def ribbonOriginY (rowAmount rowIndex h : Int) : Int :=
  rowAmount * (h + 1) - (rowAmount - rowIndex) * (h + 1) + 1

/-- The spec's simpler equivalent form of the vertical origin:
`r*(tileHeight+1)+1`. Written from the spec's words, to be compared
with `ribbonOriginY` as the source computes it. -/
def rowOriginSimple (rowIndex h : Int) : Int :=
  rowIndex * (h + 1) + 1

/-- The body of the inner placement loop of `arrangeRibbons`
(`src/shirtmaker.py` lines 49–64): for one enumerated ribbon of a row,
draw the one-pixel border rectangle around the tile cell and paste the
ribbon (converted to RGBA) at its origin. -/
def placeOneRibbon (w h k rowAmount rowIndex rowLen : Nat) (col : Pixel)
    (acc : Bitmap) (ribbonPair : Nat × Bitmap) : Bitmap :=
  let ribbonOrigX : Int := ribbonOriginX w k rowLen ribbonPair.1
  let ribbonOrigY : Int := ribbonOriginY (rowAmount : Int) (rowIndex : Int) (h : Int)
  let borderOriginX : Int := ribbonOrigX - 1
  let borderOriginY : Int := ribbonOrigY - 1
  let borderMaxX : Int := borderOriginX + w + 1
  let borderMaxY : Int := borderOriginY + h + 1
  let bordered := drawRectOutline acc borderOriginX borderOriginY
    borderMaxX borderMaxY col
  paste bordered (convertRGBA ribbonPair.2) ribbonOrigX ribbonOrigY

/-- The body of the outer row loop of `arrangeRibbons`
(`src/shirtmaker.py` lines 47–64): place every enumerated ribbon of
one enumerated row. -/
def placeOneRow (w h k rowAmount : Nat) (col : Pixel) (acc : Bitmap)
    (rowPair : Nat × List Bitmap) : Bitmap :=
  rowPair.2.enum.foldl
    (placeOneRibbon w h k rowAmount rowPair.1 rowPair.2.length col) acc

/-- `arrangeRibbons` of `src/shirtmaker.py` lines 27–66: partition the
tiles into rows, allocate the grid canvas, and for each tile draw its
one-pixel border rectangle and paste the tile (converted to RGBA). -/
def arrangeRibbons (ribbons : List Bitmap) (ribbonDimensions : Nat × Nat)
    (ribbonsPerRow : Nat) (outlineColorRGBA : Pixel) : Bitmap :=
  let rows := makeRows ribbons ribbonsPerRow
  let rowAmount := rows.length
  let resultImage := imageNew "RGBA"
    (1 + (ribbonDimensions.1 + 1) * ribbonsPerRow)
    (rowAmount * (ribbonDimensions.2 + 1) + 1) ⟨255, 255, 255, 0⟩
  rows.enum.foldl
    (placeOneRow ribbonDimensions.1 ribbonDimensions.2 ribbonsPerRow
      rowAmount outlineColorRGBA)
    resultImage

/-- `placeRibbonGrid` of `src/shirtmaker.py` lines 68–99. The bitmap
component is the pasted canvas; the list component records the
console warnings in print order. The out-of-bounds check uses the
anchor as given (before the `alignTop` adjustment) and the original
t-shirt's size, exactly as the source does. -/
def placeRibbonGrid (tShirt ribbons : Bitmap) (origin : Int × Int)
    (alignTop : Bool) : Bitmap × List Warning :=
  let resultImage := if tShirt.mode ≠ "RGBA" then convertRGBA tShirt else tShirt
  let canvasWarn : List Warning :=
    if tShirt.mode ≠ "RGBA" then [Warning.canvasMode] else []
  let ribbons2 := if ribbons.mode ≠ "RGBA" then convertRGBA ribbons else ribbons
  let ribbonWarn : List Warning :=
    if ribbons.mode ≠ "RGBA" then [Warning.overlayMode] else []
  let boundsWarn : List Warning :=
    if ¬ (0 ≤ origin.1 ∧ origin.1 < (tShirt.width : Int) ∧
          0 ≤ origin.2 ∧ origin.2 < (tShirt.height : Int)) then
      [Warning.originOutOfBounds]
    else []
  let origin2 := if alignTop then origin
    else (origin.1, origin.2 - (ribbons2.height : Int))
  (paste resultImage ribbons2 origin2.1 origin2.2,
   canvasWarn ++ ribbonWarn ++ boundsWarn)

/-- `makeNametape` of `src/shirtmaker.py` lines 101–130. The bitmap
component is the returned nametape, the list component the console
warnings. The source's conversion slip is preserved: the RGBA
conversion on line 117 is bound to `resultImage`, which is never used
again — the text is drawn on, and the return value is, the original
`nametape` in its original mode. -/
def makeNametape (template : Bitmap) (text : String) (font : Font)
    (color : Pixel) : Bitmap × List Warning :=
  let nametape := template
  let modeWarn : List Warning :=
    if nametape.mode ≠ "RGBA" then [Warning.nametapeMode] else []
  let resultImage := convertRGBA nametape
  let textLength := font.textlength text
  let overflowWarn : List Warning :=
    if textLength > nametape.width then [Warning.textOverflow] else []
  let templateCenterX := nametape.width / 2
  let textCenterX := textLength / 2
  (drawText nametape ((templateCenterX : Int) - (textCenterX : Int)) 1
    text color font, modeWarn ++ overflowWarn)

/-- `convertRGBA` preserves the pixel-buffer dimensions. -/
lemma convertRGBA_dims (im : Bitmap) :
    (convertRGBA im).width = im.width ∧ (convertRGBA im).height = im.height := by
  unfold convertRGBA
  split <;> exact ⟨rfl, rfl⟩

/-- Folding bitmap transformations that preserve width, height and
mode preserves them overall. -/
lemma foldl_dims {β : Type _} (f : Bitmap → β → Bitmap)
    (hf : ∀ b x, (f b x).width = b.width ∧ (f b x).height = b.height ∧
      (f b x).mode = b.mode) :
    ∀ (l : List β) (b : Bitmap),
      (l.foldl f b).width = b.width ∧ (l.foldl f b).height = b.height ∧
        (l.foldl f b).mode = b.mode
  | [], b => ⟨rfl, rfl, rfl⟩
  | x :: l, b => by
      have h1 := hf b x
      have h2 := foldl_dims f hf l (f b x)
      simp only [List.foldl_cons]
      exact ⟨h2.1.trans h1.1, h2.2.1.trans h1.2.1, h2.2.2.trans h1.2.2⟩

/-- `placeOneRibbon` preserves the canvas dimensions and mode. -/
lemma placeOneRibbon_dims (w h k rowAmount rowIndex rowLen : Nat) (col : Pixel)
    (acc : Bitmap) (ribbonPair : Nat × Bitmap) :
    (placeOneRibbon w h k rowAmount rowIndex rowLen col acc ribbonPair).width = acc.width ∧
    (placeOneRibbon w h k rowAmount rowIndex rowLen col acc ribbonPair).height = acc.height ∧
    (placeOneRibbon w h k rowAmount rowIndex rowLen col acc ribbonPair).mode = acc.mode :=
  ⟨rfl, rfl, rfl⟩

/-- `placeOneRow` preserves the canvas dimensions and mode. -/
lemma placeOneRow_dims (w h k rowAmount : Nat) (col : Pixel) (acc : Bitmap)
    (rowPair : Nat × List Bitmap) :
    (placeOneRow w h k rowAmount col acc rowPair).width = acc.width ∧
    (placeOneRow w h k rowAmount col acc rowPair).height = acc.height ∧
    (placeOneRow w h k rowAmount col acc rowPair).mode = acc.mode :=
  foldl_dims _ (fun b p => placeOneRibbon_dims w h k rowAmount rowPair.1
    rowPair.2.length col b p) _ _

/-- The grid canvas dimensions of `arrangeRibbons`: the border and
paste passes never change the canvas allocated on line 46. -/
lemma arrange_dims (tiles : List Bitmap) (w h k : Nat) (col : Pixel) :
    (arrangeRibbons tiles (w, h) k col).width = 1 + (w + 1) * k ∧
    (arrangeRibbons tiles (w, h) k col).height =
      (makeRows tiles k).length * (h + 1) + 1 ∧
    (arrangeRibbons tiles (w, h) k col).mode = "RGBA" := by
  unfold arrangeRibbons
  exact foldl_dims _ (fun b p => placeOneRow_dims _ _ _ _ _ b p) _ _

/-- One step of the row count: splitting off `min n k` of `n ≥ 1`
elements turns `⌈(n - min n k)/k⌉ + 1` into `⌈n/k⌉`, with
`⌈m/k⌉ = (m + k - 1) / k`. -/
lemma ceil_div_step (n k : Nat) (hk : 1 ≤ k) (hn : 1 ≤ n) :
    (n - min n k + k - 1) / k + 1 = (n + k - 1) / k := by
  have e2 : (n + k - 1) / k = (n - 1) / k + 1 := by
    rw [show n + k - 1 = (n - 1) + k by omega,
        Nat.add_div_right _ (by omega : 0 < k)]
  rcases le_or_lt n k with hle | hlt
  · rw [show n - min n k + k - 1 = k - 1 by omega, Nat.div_eq_of_lt (by omega),
        e2, Nat.div_eq_of_lt (by omega)]
  · rw [show n - min n k + k - 1 = n - 1 by omega, e2]

/-- Length of the row partition with fuel: with `k ≥ 1` and enough
fuel, the loop yields `⌈n/k⌉ = (n + k - 1) / k` rows. -/
lemma makeRowsGo_length {α : Type _} (k : Nat) (hk : 1 ≤ k) :
    ∀ (fuel : Nat) (l : List α), l.length ≤ fuel →
      (makeRowsGo fuel l k).length = (l.length + k - 1) / k := by
  intro fuel
  induction fuel with
  | zero =>
    intro l hl
    have hnil : l = [] := List.eq_nil_of_length_eq_zero (by omega)
    subst hnil
    simp only [List.length_nil]
    exact (Nat.div_eq_of_lt (by omega)).symm
  | succ fuel ih =>
    intro l hl
    match l with
    | [] =>
      simp only [List.length_nil]
      exact (Nat.div_eq_of_lt (by omega)).symm
    | a :: t =>
      have hdl : ((a :: t).drop (min (a :: t).length k)).length ≤ fuel := by
        simp only [List.length_drop, List.length_cons] at hl ⊢
        omega
      rw [makeRowsGo]
      show (makeRowsGo fuel ((a :: t).drop (min (a :: t).length k)) k).length + 1
          = ((a :: t).length + k - 1) / k
      rw [ih _ hdl, List.length_drop]
      exact ceil_div_step (a :: t).length k hk (by simp)

/-- With `k ≥ 1`, `makeRows` yields exactly `⌈n/k⌉` rows. -/
lemma makeRows_length {α : Type _} (l : List α) (k : Nat) (hk : 1 ≤ k) :
    (makeRows l k).length = (l.length + k - 1) / k :=
  makeRowsGo_length k hk l.length l le_rfl

/-- Every row produced by the partition loop has between `1` and `k`
tiles. -/
lemma makeRowsGo_row_len {α : Type _} (k : Nat) (hk : 1 ≤ k) :
    ∀ (fuel : Nat) (l : List α), l.length ≤ fuel →
      ∀ row ∈ makeRowsGo fuel l k, 1 ≤ row.length ∧ row.length ≤ k := by
  intro fuel
  induction fuel with
  | zero =>
    intro l hl row hrow
    have hnil : l = [] := List.eq_nil_of_length_eq_zero (by omega)
    subst hnil
    simp [makeRowsGo] at hrow
  | succ fuel ih =>
    intro l hl row hrow
    match l with
    | [] => simp [makeRowsGo] at hrow
    | a :: t =>
      rw [makeRowsGo] at hrow
      rcases List.mem_cons.mp hrow with heq | hmem
      · subst heq
        simp only [List.length_take, List.length_cons]
        omega
      · have hdl : ((a :: t).drop (min (a :: t).length k)).length ≤ fuel := by
          simp only [List.length_drop, List.length_cons] at hl ⊢
          omega
        exact ih _ hdl row hmem

/-- Every row of `makeRows tiles k` (indexed through `rowLength`) has
between `1` and `k` tiles when `k ≥ 1`. -/
lemma rowLength_bounds (tiles : List Bitmap) (k r : Nat) (hk : 1 ≤ k)
    (hr : r < (makeRows tiles k).length) :
    1 ≤ rowLength tiles k r ∧ rowLength tiles k r ≤ k := by
  unfold rowLength
  have hmem : (makeRows tiles k).getD r [] ∈ makeRows tiles k := by
    rw [List.getD_eq_getElem _ _ hr]
    exact List.getElem_mem hr
  exact makeRowsGo_row_len k hk tiles.length tiles le_rfl _ hmem

/-- Claim C1: for a non-empty tile list and `tilesPerRow = k ≥ 1`, the
grid bitmap's width is `1 + (tileWidth+1)*k` independently of `n`, its
height is `⌈n/k⌉*(tileHeight+1) + 1`, and the row partition has
exactly `⌈n/k⌉` rows. -/
theorem arrange_grid_size (w h k : Nat) (tiles : List Bitmap) (col : Pixel)
    (hk : 1 ≤ k) (hne : tiles ≠ []) :
    (arrangeRibbons tiles (w, h) k col).width = 1 + (w + 1) * k ∧
    (arrangeRibbons tiles (w, h) k col).height =
      ((tiles.length + k - 1) / k) * (h + 1) + 1 ∧
    (makeRows tiles k).length = (tiles.length + k - 1) / k := by
  refine ⟨(arrange_dims tiles w h k col).1, ?_, makeRows_length tiles k hk⟩
  rw [(arrange_dims tiles w h k col).2.1, makeRows_length tiles k hk]

/-- A sample 2×1 RGBA tile used by witnesses. -/
def sampleTile : Bitmap := ⟨2, 1, "RGBA", fun _ _ => ⟨10, 20, 30, 255⟩⟩

/-- A sample outline color used by witnesses. -/
def sampleColor : Pixel := ⟨80, 80, 80, 255⟩

/-- Witness for claim C1 at three 2×1 tiles and two tiles per row. -/
theorem arrange_grid_size_witness :
    (arrangeRibbons [sampleTile, sampleTile, sampleTile] (2, 1) 2 sampleColor).width
        = 1 + (2 + 1) * 2 ∧
    (arrangeRibbons [sampleTile, sampleTile, sampleTile] (2, 1) 2 sampleColor).height
        = (([sampleTile, sampleTile, sampleTile].length + 2 - 1) / 2) * (1 + 1) + 1 ∧
    (makeRows [sampleTile, sampleTile, sampleTile] 2).length
        = ([sampleTile, sampleTile, sampleTile].length + 2 - 1) / 2 :=
  arrange_grid_size 2 1 2 [sampleTile, sampleTile, sampleTile] sampleColor
    (by decide) (List.cons_ne_nil _ _)

/-- Claim C2: in a row of length `L` the tile at column `c` has X
origin `⌊((w+1)/2)·(k-L)⌋ + (w+1)·c + 1`, and a row shorter than `k`
is centered: the gap left of the column-`c` tile equals the gap right
of its mirror tile at column `L-1-c` up to `((w+1)(k-L)) mod 2 ≤ 1`
pixel of truncation. The right gap is measured from the tile's right
edge to the grid bitmap's right edge `1 + (w+1)k`. -/
theorem arrange_row_centered (w h k : Nat) (tiles : List Bitmap) (r c : Nat)
    (hk : 1 ≤ k) (hr : r < (makeRows tiles k).length)
    (hc : c < rowLength tiles k r) :
    ribbonOriginX w k (rowLength tiles k r) c
        = ((w + 1) * (k - rowLength tiles k r)) / 2 + (w + 1) * c + 1 ∧
    (1 + (w + 1) * k) -
        (ribbonOriginX w k (rowLength tiles k r) (rowLength tiles k r - 1 - c) + w)
      = ribbonOriginX w k (rowLength tiles k r) c
          + ((w + 1) * (k - rowLength tiles k r)) % 2 ∧
    ((w + 1) * (k - rowLength tiles k r)) % 2 ≤ 1 := by
  obtain ⟨hL1, hL2⟩ := rowLength_bounds tiles k r hk hr
  set L := rowLength tiles k r with hLdef
  refine ⟨rfl, ?_, ?_⟩
  · unfold ribbonOriginX
    have key : ∀ M B P Q E : Nat, M + B = E → P + (Q + (w + 1)) = B →
        (1 + E) - (M / 2 + P + 1 + w) = M / 2 + Q + 1 + M % 2 := by
      intro M B P Q E h1 h2
      omega
    have hck : (w + 1) * (k - L) + (w + 1) * L = (w + 1) * k := by
      rw [← Nat.mul_add]
      congr 1
      omega
    have hcL : (w + 1) * (L - 1 - c) + ((w + 1) * c + (w + 1)) = (w + 1) * L := by
      have hstep : (w + 1) * c + (w + 1) = (w + 1) * (c + 1) := by ring
      rw [hstep, ← Nat.mul_add]
      congr 1
      omega
    exact key _ _ _ _ _ hck hcL
  · have hmod : ∀ M : Nat, M % 2 ≤ 1 := fun M => by omega
    exact hmod _

/-- Six sample tiles: with four tiles per row this produces a full row
and a centered two-tile final row. -/
def sixTiles : List Bitmap := List.replicate 6 sampleTile

/-- Witness for claim C2 at the first tile of the short final row of
six tiles laid out four per row, with 9-pixel-wide tiles. -/
theorem arrange_row_centered_witness :
    ribbonOriginX 9 4 (rowLength sixTiles 4 1) 0
        = ((9 + 1) * (4 - rowLength sixTiles 4 1)) / 2 + (9 + 1) * 0 + 1 ∧
    (1 + (9 + 1) * 4) -
        (ribbonOriginX 9 4 (rowLength sixTiles 4 1) (rowLength sixTiles 4 1 - 1 - 0) + 9)
      = ribbonOriginX 9 4 (rowLength sixTiles 4 1) 0
          + ((9 + 1) * (4 - rowLength sixTiles 4 1)) % 2 ∧
    ((9 + 1) * (4 - rowLength sixTiles 4 1)) % 2 ≤ 1 :=
  arrange_row_centered 9 3 4 sixTiles 1 0 (by decide) (by decide) (by decide)

/-- Claim C5: the vertical origin formula used by `arrangeRibbons`,
`rowCount*(tileHeight+1) - (rowCount-r)*(tileHeight+1) + 1`, equals the
simpler form `r*(tileHeight+1) + 1` for all integer inputs. -/
theorem rowOrigin_equiv (rowAmount rowIndex h : Int) :
    ribbonOriginY rowAmount rowIndex h = rowOriginSimple rowIndex h := by
  unfold ribbonOriginY rowOriginSimple
  ring

/-- Claim C9: on the empty tile sequence `arrangeRibbons` is defined
and returns the blank grid canvas: zero rows, height `1`, width
`1 + (tileWidth+1)*tilesPerRow`. -/
theorem arrange_empty (w h k : Nat) (col : Pixel) :
    makeRows ([] : List Bitmap) k = [] ∧
    (arrangeRibbons [] (w, h) k col).width = 1 + (w + 1) * k ∧
    (arrangeRibbons [] (w, h) k col).height = 1 ∧
    arrangeRibbons [] (w, h) k col = imageNew "RGBA" (1 + (w + 1) * k) 1 ⟨255, 255, 255, 0⟩ := by
  refine ⟨rfl, ?_, ?_, ?_⟩ <;>
    simp [arrangeRibbons, makeRows, makeRowsGo, imageNew]

/-- `convertRGBA` always yields an RGBA-mode bitmap. -/
lemma convertRGBA_mode (im : Bitmap) : (convertRGBA im).mode = "RGBA" := by
  unfold convertRGBA
  split
  · assumption
  · rfl

/-- Reading a pixel of a pasted canvas: overlay inside the box, canvas
outside. -/
@[simp] lemma paste_pix (canvas overlay : Bitmap) (x0 y0 x y : Int) :
    (paste canvas overlay x0 y0).pix x y =
      if inRectB x0 y0 overlay.width overlay.height x y then
        overlay.pix (x - x0) (y - y0)
      else canvas.pix x y := rfl

/-- A 50-pixel-wide RGB (not RGBA) nametape template. -/
def sampleRGBTemplate : Bitmap := ⟨50, 7, "RGB", fun _ _ => ⟨0, 0, 0, 255⟩⟩

/-- A sample fixed-width font: six pixels per character, empty glyph
coverage. -/
def sampleFont : Font := ⟨fun s => 6 * s.length, fun _ _ _ => false⟩

/-- Claim C3 fails on the code: `makeNametape` binds the RGBA
conversion of a non-RGBA template to a local that is never used again
(`src/shirtmaker.py` line 117), draws on the original template, and
returns it still in its original mode — here `"RGB"`, not `"RGBA"` —
even while warning that the output was converted. -/
theorem makeNametape_mode_bug :
    sampleRGBTemplate.mode ≠ "RGBA" ∧
    (makeNametape sampleRGBTemplate "Ab" sampleFont ⟨255, 255, 255, 255⟩).1.mode = "RGB" ∧
    (makeNametape sampleRGBTemplate "Ab" sampleFont ⟨255, 255, 255, 255⟩).1.mode ≠ "RGBA" ∧
    Warning.nametapeMode ∈ (makeNametape sampleRGBTemplate "Ab" sampleFont ⟨255, 255, 255, 255⟩).2 := by
  exact ⟨by decide, rfl, by decide, by decide⟩

/-- Claim C8: `makeNametape` warns about overflow exactly when the
measured text width strictly exceeds the template width, and in either
case it still returns the template with the text drawn at horizontal
origin `width//2 - textWidth//2` and vertical origin `1`. -/
theorem makeNametape_overflow_spec (template : Bitmap) (text : String)
    (font : Font) (color : Pixel) :
    (Warning.textOverflow ∈ (makeNametape template text font color).2 ↔
      font.textlength text > template.width) ∧
    (makeNametape template text font color).1 =
      drawText template
        (((template.width / 2 : Nat) : Int) - ((font.textlength text / 2 : Nat) : Int))
        1 text color font := by
  unfold makeNametape
  refine ⟨?_, rfl⟩
  by_cases hov : font.textlength text > template.width
  · simp [hov, List.mem_append]
  · have hmode : Warning.textOverflow ∉
        (if template.mode ≠ "RGBA" then [Warning.nametapeMode] else []) := by
      split <;> simp
    simp [hov, List.mem_append, hmode]

/-- Claim C4: with an RGBA canvas and overlay, `placeRibbonGrid` with
`alignTop = true` returns the canvas with exactly the
`overlay.width × overlay.height` rectangle at the anchor replaced by
the overlay's pixels; its dimensions and mode, and every pixel outside
that rectangle, are unchanged. -/
theorem placeGrid_frame (tShirt ribbons : Bitmap) (origin : Int × Int)
    (x y : Int) (hc : tShirt.mode = "RGBA") (ho : ribbons.mode = "RGBA") :
    (placeRibbonGrid tShirt ribbons origin true).1.width = tShirt.width ∧
    (placeRibbonGrid tShirt ribbons origin true).1.height = tShirt.height ∧
    (placeRibbonGrid tShirt ribbons origin true).1.mode = tShirt.mode ∧
    (placeRibbonGrid tShirt ribbons origin true).1.pix x y =
      (if inRectB origin.1 origin.2 ribbons.width ribbons.height x y then
        ribbons.pix (x - origin.1) (y - origin.2)
      else tShirt.pix x y) := by
  unfold placeRibbonGrid
  simp [hc, ho, paste]

/-- An 8×8 RGBA witness canvas. -/
def witCanvas : Bitmap := ⟨8, 8, "RGBA", fun _ _ => ⟨1, 1, 1, 255⟩⟩

/-- A 3×2 RGBA witness overlay with a non-opaque alpha. -/
def witOverlay : Bitmap := ⟨3, 2, "RGBA", fun _ _ => ⟨9, 9, 9, 120⟩⟩

/-- Witness for claim C4 at anchor `(2, 3)` and the pixel `(0, 0)`
outside the pasted rectangle. -/
theorem placeGrid_frame_witness :
    (placeRibbonGrid witCanvas witOverlay (2, 3) true).1.width = witCanvas.width ∧
    (placeRibbonGrid witCanvas witOverlay (2, 3) true).1.height = witCanvas.height ∧
    (placeRibbonGrid witCanvas witOverlay (2, 3) true).1.mode = witCanvas.mode ∧
    (placeRibbonGrid witCanvas witOverlay (2, 3) true).1.pix 0 0 =
      (if inRectB 2 3 witOverlay.width witOverlay.height 0 0 then
        witOverlay.pix (0 - 2) (0 - 3)
      else witCanvas.pix 0 0) :=
  placeGrid_frame witCanvas witOverlay (2, 3) 0 0 rfl rfl

/-- Claim C6: `placeRibbonGrid` with `alignTop = false` at anchor
`(x, y)` produces the same bitmap as `alignTop = true` at anchor
`(x, y - overlay.height)`. -/
theorem placeGrid_alignBottom (tShirt ribbons : Bitmap) (x y : Int) :
    (placeRibbonGrid tShirt ribbons (x, y) false).1
      = (placeRibbonGrid tShirt ribbons (x, y - (ribbons.height : Int)) true).1 := by
  have hh : (if ribbons.mode = "RGBA" then ribbons else convertRGBA ribbons).height
      = ribbons.height := by
    split
    · rfl
    · exact (convertRGBA_dims ribbons).2
  unfold placeRibbonGrid
  simp [hh]

/-- Claim C7: pasting a grid bitmap produced by `arrangeRibbons` onto
any at-least-as-large canvas at anchor `(0, 0)` with `alignTop = true`
reproduces the grid's pixels — alpha channel included — throughout the
top-left `grid.width × grid.height` region of the result. -/
theorem placeGrid_roundtrip (w h k : Nat) (tiles : List Bitmap) (col : Pixel)
    (canvas : Bitmap)
    (hcw : (arrangeRibbons tiles (w, h) k col).width ≤ canvas.width)
    (hch : (arrangeRibbons tiles (w, h) k col).height ≤ canvas.height)
    (x y : Int) (hx0 : 0 ≤ x)
    (hx1 : x < ((arrangeRibbons tiles (w, h) k col).width : Int))
    (hy0 : 0 ≤ y)
    (hy1 : y < ((arrangeRibbons tiles (w, h) k col).height : Int)) :
    (placeRibbonGrid canvas (arrangeRibbons tiles (w, h) k col) (0, 0) true).1.pix x y
      = (arrangeRibbons tiles (w, h) k col).pix x y := by
  have hmode := (arrange_dims tiles w h k col).2.2
  have hin : inRectB 0 0 (arrangeRibbons tiles (w, h) k col).width
      (arrangeRibbons tiles (w, h) k col).height x y = true := by
    simp only [inRectB, decide_eq_true_eq]
    refine ⟨hx0, ?_, hy0, ?_⟩ <;> omega
  unfold placeRibbonGrid
  simp [hmode, hin]

/-- A 64×64 transparent RGBA witness canvas, as `newTShirt` would make
at half size. -/
def witCanvas64 : Bitmap := ⟨64, 64, "RGBA", fun _ _ => ⟨0, 0, 0, 0⟩⟩

/-- Witness for claim C7: one 2×1 tile arranged two-per-row, pasted at
`(0, 0)` onto a 64×64 canvas, read back at pixel `(0, 0)`. -/
theorem placeGrid_roundtrip_witness :
    (placeRibbonGrid witCanvas64 (arrangeRibbons [sampleTile] (2, 1) 2 sampleColor)
        (0, 0) true).1.pix 0 0
      = (arrangeRibbons [sampleTile] (2, 1) 2 sampleColor).pix 0 0 :=
  placeGrid_roundtrip 2 1 2 [sampleTile] sampleColor witCanvas64
    (by decide) (by decide) 0 0 (by decide) (by decide) (by decide) (by decide)

/-- The source's vertical origin simplifies to `r*(h+1) + 1`. -/
lemma ribbonOriginY_eq (rowAmount rowIndex h : Int) :
    ribbonOriginY rowAmount rowIndex h = rowIndex * (h + 1) + 1 := by
  unfold ribbonOriginY
  ring

/-- The X origin of column `c` in a row of length `L ≤ k` keeps the
whole bordered cell inside the grid width: `1 ≤ ox` and
`ox + w + 1 ≤ 1 + (w+1)k`. -/
lemma originX_between (w k L c : Nat) (hL2 : L ≤ k) (hc : c < L) :
    1 ≤ ribbonOriginX w k L c ∧
    ribbonOriginX w k L c + w + 1 ≤ 1 + (w + 1) * k := by
  unfold ribbonOriginX
  have key : ∀ M B Q E : Nat, M + B = E → Q + (w + 1) ≤ B →
      1 ≤ M / 2 + Q + 1 ∧ (M / 2 + Q + 1) + w + 1 ≤ 1 + E := by
    intro M B Q E h1 h2
    omega
  have hck : (w + 1) * (k - L) + (w + 1) * L = (w + 1) * k := by
    rw [← Nat.mul_add]
    congr 1
    omega
  have hq : (w + 1) * c + (w + 1) ≤ (w + 1) * L := by
    have h1 : (w + 1) * (c + 1) ≤ (w + 1) * L := Nat.mul_le_mul_left _ (by omega)
    have h3 : (w + 1) * (c + 1) = (w + 1) * c + (w + 1) := by ring
    rw [h3] at h1
    exact h1
  exact key _ _ _ _ hck hq

/-- The Y origin of row `r < rowCount` keeps the whole bordered cell
inside the grid height `rowCount*(h+1) + 1`. -/
lemma originY_between (rowCount r h : Nat) (hr : r < rowCount) :
    (1 : Int) ≤ ribbonOriginY (rowCount : Int) (r : Int) (h : Int) ∧
    ribbonOriginY (rowCount : Int) (r : Int) (h : Int) + h + 1
      ≤ ((rowCount * (h + 1) + 1 : Nat) : Int) := by
  rw [ribbonOriginY_eq]
  have h1 : (r + 1) * (h + 1) ≤ rowCount * (h + 1) :=
    Nat.mul_le_mul_right _ (by omega)
  have h2 : (((r + 1) * (h + 1) : Nat) : Int) ≤ ((rowCount * (h + 1) : Nat) : Int) := by
    exact_mod_cast h1
  have h3 : ((r : Int) + 1) * ((h : Int) + 1)
      = (r : Int) * ((h : Int) + 1) + ((h : Int) + 1) := by ring
  have h4 : (0 : Int) ≤ (r : Int) * ((h : Int) + 1) :=
    mul_nonneg (by positivity) (by positivity)
  push_cast at h2 ⊢
  constructor
  · linarith
  · linarith [h2, h3]

/-- Horizontal separation of two tiles of the same row: the cell of
column `c` ends strictly left of the cell of column `c' > c`. -/
lemma originX_sep (w k L c c' : Nat) (hcc : c < c') :
    ribbonOriginX w k L c + w < ribbonOriginX w k L c' := by
  unfold ribbonOriginX
  have key : ∀ Q Q2 M : Nat, Q + (w + 1) ≤ Q2 →
      M / 2 + Q + 1 + w < M / 2 + Q2 + 1 := by
    intro Q Q2 M hq
    omega
  refine key _ _ _ ?_
  have h1 : (w + 1) * (c + 1) ≤ (w + 1) * c' := Nat.mul_le_mul_left _ (by omega)
  have h3 : (w + 1) * (c + 1) = (w + 1) * c + (w + 1) := by ring
  rw [h3] at h1
  exact h1

/-- Vertical separation of tiles of different rows: the footprint of
row `r` ends strictly above the footprint of row `r' > r`. -/
lemma originY_sep (rowCount r r' h : Nat) (hrr : r < r') :
    ribbonOriginY (rowCount : Int) (r : Int) (h : Int) + h
      < ribbonOriginY (rowCount : Int) (r' : Int) (h : Int) := by
  rw [ribbonOriginY_eq, ribbonOriginY_eq]
  have h1 : (r + 1) * (h + 1) ≤ r' * (h + 1) :=
    Nat.mul_le_mul_right _ (by omega)
  have h2 : (((r + 1) * (h + 1) : Nat) : Int) ≤ ((r' * (h + 1) : Nat) : Int) := by
    exact_mod_cast h1
  have h3 : ((r : Int) + 1) * ((h : Int) + 1)
      = (r : Int) * ((h : Int) + 1) + ((h : Int) + 1) := by ring
  push_cast at h2
  linarith [h2, h3]

/-- Two axis-separated `w × h` rectangles share no point. -/
lemma inRectB_and_false {x0 y0 x0' y0' : Int} {w h : Nat} {x y : Int}
    (hsep : x0 + w ≤ x0' ∨ x0' + w ≤ x0 ∨ y0 + h ≤ y0' ∨ y0' + h ≤ y0) :
    (inRectB x0 y0 w h x y && inRectB x0' y0' w h x y) = false := by
  by_cases h1 : x0 ≤ x ∧ x < x0 + w ∧ y0 ≤ y ∧ y < y0 + h
  · have h2 : ¬ (x0' ≤ x ∧ x < x0' + w ∧ y0' ≤ y ∧ y < y0' + h) := by
      intro h2
      rcases hsep with hs | hs | hs | hs <;> omega
    simp [inRectB, h1, h2]
  · simp [inRectB, h1]

/-- Claim C10: with `k ≥ 1` and tiles of the stated dimensions, every
bordered tile cell placed by `arrangeRibbons` lies inside the grid
bitmap (the border rectangle spans `[ox-1, ox+w] × [oy-1, oy+h]`, so
`1 ≤ ox`, `ox+w+1 ≤ width`, `1 ≤ oy`, `oy+h+1 ≤ height`), and the
`w × h` pasted footprints of two distinct placements never overlap. -/
theorem arrange_inbounds_disjoint (w h k : Nat) (tiles : List Bitmap)
    (col : Pixel) (hk : 1 ≤ k) (hne : tiles ≠ [])
    (hdims : ∀ t ∈ tiles, t.width = w ∧ t.height = h)
    (r c : Nat) (hr : r < (makeRows tiles k).length)
    (hc : c < rowLength tiles k r)
    (r' c' : Nat) (hr' : r' < (makeRows tiles k).length)
    (hc' : c' < rowLength tiles k r')
    (hne2 : (r, c) ≠ (r', c')) (x y : Int) :
    (1 ≤ ribbonOriginX w k (rowLength tiles k r) c ∧
     ribbonOriginX w k (rowLength tiles k r) c + w + 1
       ≤ (arrangeRibbons tiles (w, h) k col).width ∧
     (1 : Int) ≤ ribbonOriginY (((makeRows tiles k).length : Nat) : Int) (r : Int) (h : Int) ∧
     ribbonOriginY (((makeRows tiles k).length : Nat) : Int) (r : Int) (h : Int) + h + 1
       ≤ (((arrangeRibbons tiles (w, h) k col).height : Nat) : Int)) ∧
    (inRectB (ribbonOriginX w k (rowLength tiles k r) c)
        (ribbonOriginY (((makeRows tiles k).length : Nat) : Int) (r : Int) (h : Int)) w h x y
      && inRectB (ribbonOriginX w k (rowLength tiles k r') c')
        (ribbonOriginY (((makeRows tiles k).length : Nat) : Int) (r' : Int) (h : Int)) w h x y)
      = false := by
  obtain ⟨hW, hH, _⟩ := arrange_dims tiles w h k col
  obtain ⟨hL1, hL2⟩ := rowLength_bounds tiles k r hk hr
  obtain ⟨hL1', hL2'⟩ := rowLength_bounds tiles k r' hk hr'
  constructor
  · refine ⟨(originX_between w k _ c hL2 hc).1, ?_,
      (originY_between (makeRows tiles k).length r h hr).1, ?_⟩
    · rw [hW]
      exact (originX_between w k _ c hL2 hc).2
    · have hcast : (((arrangeRibbons tiles (w, h) k col).height : Nat) : Int)
          = (((makeRows tiles k).length * (h + 1) + 1 : Nat) : Int) := by
        exact_mod_cast hH
      rw [hcast]
      exact (originY_between (makeRows tiles k).length r h hr).2
  · rcases eq_or_ne r r' with heq | hneq
    · subst heq
      have hcc : c ≠ c' := fun hcc => hne2 (by rw [hcc])
      rcases Nat.lt_or_ge c c' with hlt | hge
      · refine inRectB_and_false (Or.inl ?_)
        have := originX_sep w k (rowLength tiles k r) c c' hlt
        exact_mod_cast Nat.le_of_lt (by omega)
      · have hlt' : c' < c := by omega
        refine inRectB_and_false (Or.inr (Or.inl ?_))
        have := originX_sep w k (rowLength tiles k r) c' c hlt'
        exact_mod_cast Nat.le_of_lt (by omega)
    · rcases Nat.lt_or_ge r r' with hlt | hge
      · refine inRectB_and_false (Or.inr (Or.inr (Or.inl ?_)))
        have := originY_sep (makeRows tiles k).length r r' h hlt
        omega
      · have hlt' : r' < r := by omega
        refine inRectB_and_false (Or.inr (Or.inr (Or.inr ?_)))
        have := originY_sep (makeRows tiles k).length r' r h hlt'
        omega

/-- Three sample 2×1 tiles. -/
def threeTiles : List Bitmap := [sampleTile, sampleTile, sampleTile]

/-- Witness for claim C10 with three 2×1 tiles, two per row, the two
placements of the first row, at the point `(0, 0)`. -/
theorem arrange_inbounds_disjoint_witness :
    (1 ≤ ribbonOriginX 2 2 (rowLength threeTiles 2 0) 0 ∧
     ribbonOriginX 2 2 (rowLength threeTiles 2 0) 0 + 2 + 1
       ≤ (arrangeRibbons threeTiles (2, 1) 2 sampleColor).width ∧
     (1 : Int) ≤ ribbonOriginY (((makeRows threeTiles 2).length : Nat) : Int) (0 : Int) (1 : Int) ∧
     ribbonOriginY (((makeRows threeTiles 2).length : Nat) : Int) (0 : Int) (1 : Int) + 1 + 1
       ≤ (((arrangeRibbons threeTiles (2, 1) 2 sampleColor).height : Nat) : Int)) ∧
    (inRectB (ribbonOriginX 2 2 (rowLength threeTiles 2 0) 0)
        (ribbonOriginY (((makeRows threeTiles 2).length : Nat) : Int) (0 : Int) (1 : Int)) 2 1 0 0
      && inRectB (ribbonOriginX 2 2 (rowLength threeTiles 2 0) 1)
        (ribbonOriginY (((makeRows threeTiles 2).length : Nat) : Int) (0 : Int) (1 : Int)) 2 1 0 0)
      = false :=
  arrange_inbounds_disjoint 2 1 2 threeTiles sampleColor (by decide)
    (List.cons_ne_nil _ _) (by decide) 0 0 (by decide) (by decide)
    0 1 (by decide) (by decide) (by decide) 0 0

end Shirtmaker
